import Mathlib

/-!
Verification of the sonde-hunter-pi data-acquisition and fusion core.

Shallow embedding of the Python sources:
  * `AutoRX`  — src/autorx.py  (UDP telemetry listener, garbage collection)
  * `Gpsd`    — src/gpsd.py    (GPSD position stream, sparse merge)
  * `Touch`   — src/touch.py   (XPT2046 touch sampler, denoising, IRQ path)
  * `Display` — src/display.py (screen state machine, hit-testing, far flag)
  * `Main`    — src/main.py    (fusion loop, GPS reliability window)

Conventions: machine floats are modelled as `Rat` (exact arithmetic),
timestamps as `Int` (seconds), Python `int()` truncation as truncated
integer division, Python `round(x, n)` as round-half-to-even.
-/

namespace AutoRX

/-- One telemetry record in the output buffer.  Only the receipt
timestamp (`packet["time"]`, seconds) matters for garbage collection. -/
structure SondePacket where
  time : Int
  deriving DecidableEq, Repr

/-- `GARBAGE_COLLECT_AGE = 60*60` (src/autorx.py line 10). -/
def GARBAGE_COLLECT_AGE : Int := 60 * 60

/-- `AutoRXListener._garbage_collect_output` (src/autorx.py lines 23-32).
The source computes
`(self.out_queue[0]["time"] - datetime.now(timezone.utc)).total_seconds()`,
i.e. the head's timestamp MINUS the current time, and clears the buffer
when that quantity is `>= GARBAGE_COLLECT_AGE`. -/
def garbage_collect_output (now : Int) (out_queue : List SondePacket) :
    List SondePacket :=
  match out_queue with
  | [] => out_queue
  | head :: _ =>
    let output_data_age := head.time - now
    if output_data_age ≥ GARBAGE_COLLECT_AGE then [] else out_queue

/-- A decoded UDP payload: the JSON keys the listener reads.  `none`
models a missing key (a `KeyError` in Python). -/
structure PacketJson where
  typeField : Option String
  callsign : Option String
  deriving DecidableEq, Repr

/-- Outcome of one `recvfrom` call inside the receive loop:
either a 1s timeout, or a datagram whose payload decodes to
`some p` (valid JSON) or to `none` (invalid JSON, `json.loads` raises). -/
inductive RecvOutcome where
  | timeout : RecvOutcome
  | datagram : Option PacketJson → RecvOutcome
  deriving DecidableEq, Repr

/-- A packet stored in the output queue, timestamped at receipt. -/
structure TimedPacket where
  packet : PacketJson
  time : Int
  deriving DecidableEq, Repr

/-- Result of one iteration of `AutoRXListener._listen`'s receive loop:
either the loop continues with an updated queue, or an exception escaped
to the outer handler (src/autorx.py lines 73-76), which logs it and calls
`self.close()` — the listener terminates. -/
inductive StepResult where
  | cont : List TimedPacket → StepResult
  | terminated : List TimedPacket → StepResult
  deriving DecidableEq, Repr

/-- One iteration of the receive loop of `AutoRXListener._listen`
(src/autorx.py lines 54-66).  The inner `try` catches ONLY
`socket.timeout`; `json.loads` failures and `KeyError` on
`packet["type"]` / `packet['callsign']` (the latter evaluated eagerly in
the debug f-string) propagate to the outer handler and terminate the
listener. -/
def listen_step (now : Int) (out_queue : List TimedPacket)
    (ev : RecvOutcome) : StepResult :=
  match ev with
  | .timeout => .cont out_queue
  | .datagram none => .terminated out_queue
  | .datagram (some p) =>
    match p.typeField with
    | none => .terminated out_queue
    | some t =>
      if t = "PAYLOAD_SUMMARY" then
        match p.callsign with
        | none => .terminated out_queue
        | some _ => .cont (out_queue ++ [{ packet := p, time := now }])
      else
        .cont out_queue

/-- A datagram the listener cannot fully process: invalid JSON, a
missing `"type"` key, or a payload summary missing `"callsign"`. -/
def malformed : RecvOutcome → Bool
  | .timeout => false
  | .datagram none => true
  | .datagram (some p) =>
    match p.typeField with
    | none => true
    | some t =>
      if t = "PAYLOAD_SUMMARY" then p.callsign.isNone else false

/-- Whether a loop-step outcome is listener termination. -/
def isTerminated : StepResult → Bool
  | .cont _ => false
  | .terminated _ => true

end AutoRX

namespace Gpsd

/-- A decoded GPSD JSON document: the keys `GPSDListener._process_response`
may read.  `none` models a missing key (a `KeyError` in Python); for
`"SKY"` documents, `satellites` is the list of each satellite's
`"used"` flag (`none` = that satellite object lacks the key). -/
structure GpsdResponse where
  cls : String
  mode : Option Int
  lat : Option Rat
  lon : Option Rat
  alt : Option Rat
  satellites : Option (List (Option Bool))
  deriving DecidableEq, Repr

/-- The sparse `out` dict built by `_process_response`: `none` means the
key is absent from the returned dict. -/
structure PartialFix where
  latitude : Option Rat := none
  longitude : Option Rat := none
  altitude : Option Rat := none
  satellites : Option Nat := none
  fix : Option String := none
  deriving DecidableEq, Repr

/-- The `used` counting loop of `_process_response` (src/gpsd.py lines
58-61); `none` if any satellite object lacks the `"used"` key
(`KeyError`). -/
def count_used : List (Option Bool) → Option Nat
  | [] => some 0
  | none :: _ => none
  | some u :: rest => (count_used rest).map (fun n => if u then n + 1 else n)

/-- `GPSDListener._process_response` (src/gpsd.py lines 36-69).  Returns
the sparse dict of fields the document carries; any `KeyError` along the
way makes the whole result empty (`return {}`). -/
def process_response (r : GpsdResponse) : PartialFix :=
  if r.cls = "TPV" then
    match r.mode with
    | none => {}
    | some fix =>
      if fix > 1 then
        match r.lat, r.lon with
        | some la, some lo =>
          if fix = 2 then
            { latitude := some la, longitude := some lo, fix := some "2D" }
          else if fix = 3 then
            match r.alt with
            | none => {}
            | some al =>
              { latitude := some la, longitude := some lo,
                altitude := some al, fix := some "3D" }
          else
            { latitude := some la, longitude := some lo }
        | _, _ => {}
      else
        { fix := some "NO" }
  else if r.cls = "SKY" then
    match r.satellites with
    | none => {}
    | some sats =>
      match count_used sats with
      | none => {}
      | some n => { satellites := some n }
  else
    {}

/-- The `latest_output` record (src/gpsd.py line 94): always holds all
five fields. -/
structure FixRecord where
  latitude : Rat
  longitude : Rat
  altitude : Rat
  satellites : Nat
  fix : String
  deriving DecidableEq, Repr

/-- `latest_output.update(response_info)` (src/gpsd.py line 106):
Python `dict.update` overwrites exactly the keys present in
`response_info` and leaves every other key untouched. -/
def update_fix (cur : FixRecord) (p : PartialFix) : FixRecord :=
  { latitude := p.latitude.getD cur.latitude,
    longitude := p.longitude.getD cur.longitude,
    altitude := p.altitude.getD cur.altitude,
    satellites := p.satellites.getD cur.satellites,
    fix := p.fix.getD cur.fix }

end Gpsd

namespace Display

/-- A registered touch hit-region, `(start_x, start_y, end_x, end_y)`
(src/display.py lines 152-155). -/
structure Region where
  sx : Int
  sy : Int
  ex : Int
  ey : Int
  deriving DecidableEq, Repr

/-- The registered hit-regions of `DisplayController.touch_buttons`
(src/display.py lines 152-155); the single region targets
`_show_geo_qr`. -/
def touch_buttons : List Region := [⟨100, 30, 70, 5⟩]

/-- The hit-test of `DisplayController._check_touch`
(src/display.py line 291):
`(touch_x <= start_x) and (touch_y <= start_y) and
 (touch_x >= end_x) and (touch_y >= end_y)`. -/
def button_hit (p : Int × Int) (b : Region) : Bool :=
  p.1 ≤ b.sx && p.2 ≤ b.sy && p.1 ≥ b.ex && p.2 ≥ b.ey

/-- The `far` flag of `DisplayController._display_tracking_screen`
(src/display.py lines 186-188).  `sonde_distance` is the geodesic
distance in metres already rounded to an integer (the geodesic
computation itself is an external library, taken as an input here);
`altitude` is the sonde's reported altitude. -/
def far_flag (sonde_distance : Int) (altitude : Rat) : Bool :=
  (sonde_distance > 9999) || (altitude > 9999)

/-- Python `round` to an integer: round half to even (banker's
rounding). -/
def roundHalfEven (q : Rat) : Int :=
  let f := ⌊q⌋
  let r := q - f
  if r < 1 / 2 then f
  else if 1 / 2 < r then f + 1
  else if f % 2 = 0 then f else f + 1

/-- Python `round(x, 5)` (src/display.py lines 313-314). -/
def round5 (q : Rat) : Rat :=
  (roundHalfEven (q * 100000) : Rat) / 100000

/-- The telemetry-record fields `DisplayController.update` reads
(`autorx_data["latitude"/"longitude"/"time"]`; `time` is the receipt
timestamp in seconds). -/
structure AutorxData where
  latitude : Rat
  longitude : Rat
  altitude : Rat
  time : Int
  deriving DecidableEq, Repr

/-- The GPSD-fix fields `DisplayController.update` reads for the bottom
status text. -/
structure GpsdFix where
  satellites : Option Nat
  fix : String
  deriving DecidableEq, Repr

/-- The mutable state of `DisplayController` that `update` touches:
`block_touch`, `last_sonde_position`, `sleep_time` and the shared
`touch_data` deque (`none` = touch disabled). -/
structure DisplayState where
  block_touch : Bool
  last_sonde_position : Option (Rat × Rat × Int)
  sleep_time : Nat
  touch_data : Option (List (Int × Int))
  deriving DecidableEq, Repr

/-- Which screen an `update` call rendered.  Pixel-level drawing
(fonts, QR bitmap, status text) is an external collaborator; only the
screen selection is modelled. -/
inductive DrawnScreen where
  | idle : DrawnScreen
  | tracking : DrawnScreen
  | qr : DrawnScreen
  | noSondeData : DrawnScreen
  deriving DecidableEq, Repr

/-- `DisplayController._show_geo_qr` (src/display.py lines 249-283):
with no retained sonde position it draws a "No sonde data yet" message
and sets `sleep_time = 3`; otherwise it draws the geo QR code and sets
`sleep_time = 5`.  It never writes `last_sonde_position`. -/
def show_geo_qr (st : DisplayState) : DisplayState × DrawnScreen :=
  match st.last_sonde_position with
  | none => ({ st with sleep_time := 3 }, .noSondeData)
  | some _ => ({ st with sleep_time := 5 }, .qr)

/-- `DisplayController._check_touch` (src/display.py lines 285-296):
iterate over `touch_buttons`; on a hit set `block_touch = True` and run
the target action (`_show_geo_qr`).  Returns the updated state, the
`button_triggered` flag and what the action drew. -/
def check_touch (pt : Int × Int) (st : DisplayState) :
    DisplayState × Bool × Option DrawnScreen :=
  touch_buttons.foldl
    (fun acc b =>
      if button_hit pt b then
        let st1 := { acc.1 with block_touch := true }
        let res := show_geo_qr st1
        (res.1, true, some res.2)
      else acc)
    (st, false, none)

/-- The tail of `DisplayController.update` (src/display.py lines
342-359): clear `block_touch`, then draw the idle screen (no telemetry)
or the tracking screen (telemetry present) plus the status texts. -/
def draw_screens (st : DisplayState) (autorx : Option AutorxData) :
    DisplayState × Option DrawnScreen :=
  ({ st with block_touch := false },
   some (match autorx with | none => .idle | some _ => .tracking))

/-- The body of `DisplayController.update` after the sleep check
(src/display.py lines 311-359): update the latest sonde position, then
handle pending touch events inside the canvas block (lines 325-340) and
draw a screen. -/
def update_after_sleep (st : DisplayState) (autorx : Option AutorxData) :
    DisplayState × Option DrawnScreen :=
  let st :=
    match autorx with
    | some a =>
      let pos := (round5 a.latitude, round5 a.longitude, a.time)
      { st with last_sonde_position := some pos }
    | none => st
  match st.touch_data with
  | none => draw_screens st autorx
  | some td0 =>
    let td := if st.block_touch then [] else td0
    let st := { st with touch_data := some td }
    match td with
    | [] => draw_screens st autorx
    | pt :: _ =>
      let st := { st with touch_data := some [] }
      let res := check_touch pt st
      if res.2.1 then (res.1, res.2.2)
      else draw_screens res.1 autorx

/-- `DisplayController.update` (src/display.py lines 298-359).
Returns the state after the call and the screen drawn (`none` when the
sleeping early-return drew nothing).  `gpsd` and `gps_reliable` only
parameterize the rendered texts/layout, which are abstracted. -/
def update (st : DisplayState) (gpsd : GpsdFix) (autorx : Option AutorxData)
    (gps_reliable : Bool) : DisplayState × Option DrawnScreen :=
  -- sleep check (lines 302-308)
  if st.sleep_time > 0 then
    ({ st with sleep_time := 0 }, none)
  else
    update_after_sleep st autorx

end Display

namespace Touch

/-- The calibration parameters of `Xpt2046.__init__` (src/touch.py
lines 17-49). -/
structure TouchCfg where
  width : Nat
  height : Nat
  min_x : Nat
  max_x : Nat
  min_y : Nat
  max_y : Nat
  deriving DecidableEq, Repr

/-- `self.x_multiplier = display_width / (max_x - min_x)`. -/
def x_multiplier (c : TouchCfg) : Rat :=
  (c.width : Rat) / ((c.max_x : Rat) - (c.min_x : Rat))

/-- `self.x_add = min_x * -self.x_multiplier`. -/
def x_add (c : TouchCfg) : Rat :=
  (c.min_x : Rat) * (-(x_multiplier c))

/-- `self.y_multiplier = display_height / (max_y - min_y)`. -/
def y_multiplier (c : TouchCfg) : Rat :=
  (c.height : Rat) / ((c.max_y : Rat) - (c.min_y : Rat))

/-- `self.y_add = min_y * -self.y_multiplier`. -/
def y_add (c : TouchCfg) : Rat :=
  (c.min_y : Rat) * (-(y_multiplier c))

/-- Python `int()`: truncation toward zero. -/
def truncInt (q : Rat) : Int :=
  q.num / (q.den : Int)

/-- `Xpt2046.normalize` (src/touch.py lines 108-114): affine map from
raw ADC coordinates to screen pixels, truncated to integers. -/
def normalize (c : TouchCfg) (x y : Nat) : Int × Int :=
  (truncInt (x_multiplier c * (x : Rat) + x_add c),
   truncInt (y_multiplier c * (y : Rat) + y_add c))

/-- `Xpt2046.raw_touch` (src/touch.py lines 116-125): a raw ADC sample
passes only if both axes lie within the calibrated extents. -/
def raw_touch (c : TouchCfg) (xy : Nat × Nat) : Option (Nat × Nat) :=
  if c.min_x ≤ xy.1 ∧ xy.1 ≤ c.max_x ∧ c.min_y ≤ xy.2 ∧ xy.2 ≤ c.max_y then
    some xy
  else
    none

/-- Loop state of `Xpt2046.get_touch` (src/touch.py lines 58-87): the
5-slot ring `buffer`, the write index, and the count of consecutive
accepted samples. -/
structure GetTouchState where
  buffer : List (Nat × Nat)
  buffer_index : Nat
  nsamples : Nat
  deriving DecidableEq, Repr

/-- `buffer = [(0, 0) for _ in range(confidence)]` with
`buffer_index = 0`, `nsamples = 0` (src/touch.py lines 63-66). -/
def initGetTouchState : GetTouchState :=
  { buffer := List.replicate 5 (0, 0), buffer_index := 0, nsamples := 0 }

/-- `sum(c[0] for c in buffer)`. -/
def sumX (l : List (Nat × Nat)) : Nat :=
  (l.map Prod.fst).sum

/-- `sum(c[1] for c in buffer)`. -/
def sumY (l : List (Nat × Nat)) : Nat :=
  (l.map Prod.snd).sum

/-- `meanx = sum(...) // buffer_length` (Python floor division;
`buffer_length = 5`). -/
def meanX (l : List (Nat × Nat)) : Nat :=
  sumX l / 5

/-- `meany = sum(...) // buffer_length`. -/
def meanY (l : List (Nat × Nat)) : Nat :=
  sumY l / 5

/-- `dev = sum((c[0]-meanx)**2 + (c[1]-meany)**2 for c in buffer) /
buffer_length` — Python true division, exact over the rationals. -/
def dev (l : List (Nat × Nat)) : Rat :=
  (((l.map (fun c =>
      ((c.1 : Int) - (meanX l : Int)) ^ 2 +
        ((c.2 : Int) - (meanY l : Int)) ^ 2)).sum : Int) : Rat) / 5

/-- The sampling half of one `get_touch` loop iteration (src/touch.py
lines 76-82): an out-of-bounds raw read resets `nsamples` to 0; a valid
sample is written over the oldest ring slot and `nsamples` is
incremented up to the ring capacity. -/
def sample_step (c : TouchCfg) (st : GetTouchState) (r : Nat × Nat) :
    GetTouchState :=
  match raw_touch c r with
  | none => { st with nsamples := 0 }
  | some sample =>
    { buffer := st.buffer.set st.buffer_index sample,
      buffer_index := (st.buffer_index + 1) % 5,
      nsamples := min (st.nsamples + 1) 5 }

/-- The `while timeout > 0` loop of `get_touch` (src/touch.py lines
68-87): at the top of each iteration, if the ring holds 5 accepted
samples and their deviation is at most 50, return the normalized
integer mean; otherwise consume the next raw reading.  `reads` is the
stream of raw ADC pairs the hardware returns, one per iteration; its
length bounds the remaining iterations (list exhausted = timeout). -/
def get_touch_go (c : TouchCfg) :
    GetTouchState → List (Nat × Nat) → Option (Int × Int)
  | _, [] => none
  | st, r :: rest =>
    if st.nsamples = 5 ∧ dev st.buffer ≤ 50 then
      some (normalize c (meanX st.buffer) (meanY st.buffer))
    else
      get_touch_go c (sample_step c st r) rest

/-- `Xpt2046.get_touch` (src/touch.py lines 58-87): `timeout = 2`
seconds with a 0.05 s delay per iteration gives 40 iterations (the
floating-point countdown `timeout -= 0.05` is modelled exactly over the
rationals). -/
def get_touch (c : TouchCfg) (reads : List (Nat × Nat)) :
    Option (Int × Int) :=
  get_touch_go c initGetTouchState (reads.take 40)

/-- Loop invariant of `get_touch`: the ring is well formed, and some
newest-first list `recent` of `nsamples` consecutive in-bounds raw
reads — the most recent reads consumed — is exactly what the ring holds
(slot `(buffer_index + 4 - j) % 5` is the `j`-th newest). -/
def GetTouchInv (c : TouchCfg) (st : GetTouchState)
    (done : List (Nat × Nat)) : Prop :=
  st.buffer.length = 5 ∧ st.buffer_index < 5 ∧ st.nsamples ≤ 5 ∧
  ∃ recent : List (Nat × Nat),
    recent.length = st.nsamples ∧
    recent.reverse <:+ done ∧
    (∀ e ∈ recent, (raw_touch c e).isSome = true) ∧
    (∀ j, j < st.nsamples →
      st.buffer[(st.buffer_index + 4 - j) % 5]? = recent[j]?)

/-- State of the interrupt path: the `irq_locked` in-progress flag and
the `TouchController` output queue the `irq_handler` appends to
(src/touch.py lines 51-56 and 168-171). -/
structure IrqState where
  irq_locked : Bool
  out_queue : List (Int × Int)
  deriving DecidableEq, Repr

/-- `Xpt2046.irq_press` (src/touch.py lines 89-99): if not already
locked, lock, take one raw reading, and if it is in bounds normalize it
and deliver it to the handler (which appends it to the output queue).
`raw` is the ADC pair the hardware would return for this press. -/
def irq_press (c : TouchCfg) (st : IrqState) (raw : Nat × Nat) : IrqState :=
  if st.irq_locked then st
  else
    let st := { st with irq_locked := true }
    match raw_touch c raw with
    | none => st
    | some b =>
      { st with out_queue := st.out_queue ++ [normalize c b.1 b.2] }

/-- `Xpt2046.irq_release` (src/touch.py lines 101-106). -/
def irq_release (st : IrqState) : IrqState :=
  if st.irq_locked then { st with irq_locked := false } else st

end Touch

namespace Main

/-- One `gps_fixes.append(...)` on the `deque(maxlen=10)` of
src/main.py line 89/99: append on the right, dropping the leftmost
entry when the deque is full. -/
def push_fix (w : List String) (f : String) : List String :=
  let w' := w ++ [f]
  if 10 < w'.length then w'.tail else w'

/-- `gps_reliable = "NO" not in gps_fixes` (src/main.py line 100). -/
def gps_reliable (w : List String) : Bool :=
  !(w.contains "NO")

/-- The last `n` elements of a list (what a `deque(maxlen=n)` retains
after appending the whole list element by element). -/
def lastWindow (n : Nat) (l : List String) : List String :=
  l.drop (l.length - n)

end Main

/-- C1: the claim reads: once the head record's age (now minus its
receipt timestamp) is at least 3600 s, the housekeeping pass clears the
buffer.  The source instead computes the age as the head's timestamp
minus now (src/autorx.py line 29), which is negative for any record
received in the past, so a buffer whose head was received 3600 s ago is
NOT cleared: with `now = 3600` and a head timestamped `0`,
`_garbage_collect_output` returns the buffer unchanged and non-empty. -/
theorem garbage_collect_never_clears_stale_head :
    AutoRX.garbage_collect_output 3600 [⟨0⟩] = [⟨0⟩] ∧
      ([(⟨0⟩ : AutoRX.SondePacket)] : List AutoRX.SondePacket) ≠ [] := by
  constructor
  · rfl
  · simp

/-- C2 counterexample: the claim says a datagram with an invalid-JSON
payload never terminates the listener; in the source the inner `try`
catches only `socket.timeout`, so `json.loads` raising on such a
datagram reaches the outer handler which closes the listener:
one loop step on an invalid-JSON datagram yields `terminated`. -/
theorem invalid_json_terminates_listener :
    AutoRX.listen_step 0 [] (.datagram none) = .terminated [] ∧
      AutoRX.isTerminated (AutoRX.listen_step 0 [] (.datagram none)) = true := by
  exact ⟨rfl, rfl⟩

/-- C2 (amended): one receive-loop step terminates the listener exactly
on malformed datagrams (invalid JSON, missing `"type"`, or a payload
summary missing `"callsign"`); socket timeouts and well-formed
datagrams continue the loop. -/
theorem listen_step_terminates_iff_malformed
    (now : Int) (q : List AutoRX.TimedPacket) (ev : AutoRX.RecvOutcome) :
    AutoRX.isTerminated (AutoRX.listen_step now q ev) = AutoRX.malformed ev := by
  cases ev with
  | timeout => rfl
  | datagram p =>
    cases p with
    | none => rfl
    | some pj =>
      cases h : pj.typeField with
      | none => simp [AutoRX.listen_step, AutoRX.malformed, AutoRX.isTerminated, h]
      | some t =>
        by_cases ht : t = "PAYLOAD_SUMMARY"
        · cases hc : pj.callsign with
          | none =>
            simp [AutoRX.listen_step, AutoRX.malformed, AutoRX.isTerminated, h, ht, hc]
          | some c =>
            simp [AutoRX.listen_step, AutoRX.malformed, AutoRX.isTerminated, h, ht, hc]
        · simp [AutoRX.listen_step, AutoRX.malformed, AutoRX.isTerminated, h, ht]

/-- C4: a touch point `(x,y)` activates a region `(sx,sy,ex,ey)` iff
`x ≤ sx ∧ y ≤ sy ∧ x ≥ ex ∧ y ≥ ey`; for the registered region
`(100,30,70,5)` the point `(85,15)` activates it and `(60,15)` does
not. -/
theorem button_hit_characterization :
    (∀ x y sx sy ex ey : Int,
      Display.button_hit (x, y) ⟨sx, sy, ex, ey⟩ = true ↔
        (x ≤ sx ∧ y ≤ sy ∧ x ≥ ex ∧ y ≥ ey)) ∧
    Display.touch_buttons = [⟨100, 30, 70, 5⟩] ∧
    Display.button_hit (85, 15) ⟨100, 30, 70, 5⟩ = true ∧
    Display.button_hit (60, 15) ⟨100, 30, 70, 5⟩ = false := by
  refine ⟨?_, rfl, by decide, by decide⟩
  intro x y sx sy ex ey
  simp [Display.button_hit, and_assoc]

/-- C6: with a telemetry record present, `far` is true iff the rounded
great-circle distance in metres exceeds 9999 or the sonde's reported
altitude exceeds 9999; in particular far(10000 m, alt 0) = true,
far(9999 m, alt 10000) = true, far(5000 m, alt 5000) = false. -/
theorem far_flag_characterization :
    (∀ (d : Int) (alt : Rat),
      Display.far_flag d alt = true ↔ (d > 9999 ∨ alt > 9999)) ∧
    Display.far_flag 10000 0 = true ∧
    Display.far_flag 9999 10000 = true ∧
    Display.far_flag 5000 5000 = false := by
  refine ⟨?_, by decide, by decide, by decide⟩
  intro d alt
  simp [Display.far_flag]

/-- C3: applying a processed GPSD document to the latest-fix record
changes only the fields the processed document carries; every field it
does not carry keeps its previous value (sparse merge, never
whole-record replacement). -/
theorem process_response_sparse_merge (r : Gpsd.GpsdResponse)
    (cur : Gpsd.FixRecord) :
    ((Gpsd.process_response r).latitude = none →
      (Gpsd.update_fix cur (Gpsd.process_response r)).latitude =
        cur.latitude) ∧
    ((Gpsd.process_response r).longitude = none →
      (Gpsd.update_fix cur (Gpsd.process_response r)).longitude =
        cur.longitude) ∧
    ((Gpsd.process_response r).altitude = none →
      (Gpsd.update_fix cur (Gpsd.process_response r)).altitude =
        cur.altitude) ∧
    ((Gpsd.process_response r).satellites = none →
      (Gpsd.update_fix cur (Gpsd.process_response r)).satellites =
        cur.satellites) ∧
    ((Gpsd.process_response r).fix = none →
      (Gpsd.update_fix cur (Gpsd.process_response r)).fix = cur.fix) := by
  refine ⟨?_, ?_, ?_, ?_, ?_⟩ <;> intro h <;> simp [Gpsd.update_fix, h]

/-- C3 witness: a concrete SKY document carrying only a satellite count
leaves the latitude of the latest-fix record untouched. -/
theorem process_response_sparse_merge_witness :
    (Gpsd.process_response
        ⟨"SKY", none, none, none, none, some [some true, some false]⟩).latitude =
      none ∧
    (Gpsd.update_fix ⟨1, 2, 3, 4, "3D"⟩
        (Gpsd.process_response
          ⟨"SKY", none, none, none, none,
            some [some true, some false]⟩)).latitude = (1 : Rat) := by
  exact ⟨rfl, (process_response_sparse_merge _ ⟨1, 2, 3, 4, "3D"⟩).1 rfl⟩

/-- Dropping indices: the last-10 window of `a :: l` equals that of `l`
when `l` already has at least 10 elements. -/
theorem lastWindow_cons (a : String) (l : List String)
    (h : 10 ≤ l.length) :
    Main.lastWindow 10 (a :: l) = Main.lastWindow 10 l := by
  unfold Main.lastWindow
  have h1 : (a :: l).length - 10 = (l.length - 10) + 1 := by
    simp only [List.length_cons]
    omega
  rw [h1, List.drop_succ_cons]

/-- Folding `push_fix` over a history starting from a window of at most
10 entries yields the last-10 window of the concatenation — the
`deque(maxlen=10)` semantics. -/
theorem foldl_push_fix_eq_lastWindow (hist : List String) :
    ∀ w : List String, w.length ≤ 10 →
      List.foldl Main.push_fix w hist = Main.lastWindow 10 (w ++ hist) := by
  induction hist with
  | nil =>
    intro w hw
    have h0 : w.length - 10 = 0 := by omega
    simp [Main.lastWindow, h0]
  | cons x t ih =>
    intro w hw
    rw [List.foldl_cons]
    by_cases h : 10 < (w ++ [x]).length
    · have hlen : w.length = 10 := by
        simp only [List.length_append, List.length_singleton] at h
        omega
      cases w with
      | nil => simp at hlen
      | cons a w' =>
        have hw' : w'.length = 9 := by
          simp only [List.length_cons] at hlen
          omega
        have htail : Main.push_fix (a :: w') x = w' ++ [x] := by
          have h8 : 8 < w'.length := by omega
          simp [Main.push_fix, h8]
        have hlen' : (w' ++ [x]).length ≤ 10 := by
          simp only [List.length_append, List.length_singleton]
          omega
        rw [htail, ih (w' ++ [x]) hlen']
        have hassoc : (w' ++ [x]) ++ t = w' ++ x :: t := by simp
        have hassoc2 : (a :: w') ++ x :: t = a :: (w' ++ x :: t) := by simp
        rw [hassoc, hassoc2, lastWindow_cons]
        simp only [List.length_append, List.length_cons]
        omega
    · have hle : (w ++ [x]).length ≤ 10 := by omega
      have h' : ¬ 10 < w.length + 1 := by
        simp only [List.length_append, List.length_singleton] at h
        omega
      have hpf : Main.push_fix w x = w ++ [x] := by
        simp [Main.push_fix, h']
      rw [hpf, ih (w ++ [x]) hle]
      have : (w ++ [x]) ++ t = w ++ x :: t := by simp
      rw [this]

/-- C8: the GPS-reliable flag is true iff the sliding window of the
last (up to) 10 observed fix-quality values contains no no-fix (`"NO"`)
entry; one `"NO"` anywhere in the window makes it false, and a window
with no `"NO"` makes it true. -/
theorem gps_reliable_characterization :
    (∀ hist : List String,
      Main.gps_reliable (List.foldl Main.push_fix [] hist) = true ↔
        "NO" ∉ Main.lastWindow 10 hist) ∧
    (∀ w : List String, "NO" ∈ w → Main.gps_reliable w = false) ∧
    (∀ w : List String, "NO" ∉ w → Main.gps_reliable w = true) := by
  refine ⟨?_, ?_, ?_⟩
  · intro hist
    rw [foldl_push_fix_eq_lastWindow hist [] (by simp), List.nil_append]
    simp [Main.gps_reliable]
  · intro w hw
    simp [Main.gps_reliable, hw]
  · intro w hw
    simp [Main.gps_reliable, hw]

/-- C8 witness: a full 10-entry window with a single `"NO"` is
unreliable; a full window without `"NO"` is reliable. -/
theorem gps_reliable_characterization_witness :
    Main.gps_reliable
        ["3D", "3D", "3D", "3D", "NO", "3D", "3D", "3D", "3D", "3D"] =
      false ∧
    Main.gps_reliable
        ["3D", "2D", "3D", "3D", "3D", "3D", "3D", "3D", "3D", "3D"] =
      true := by
  exact ⟨gps_reliable_characterization.2.1 _ (by decide),
    gps_reliable_characterization.2.2 _ (by decide)⟩

/-- `_show_geo_qr` never writes `last_sonde_position`. -/
theorem show_geo_qr_lsp (st : Display.DisplayState) :
    (Display.show_geo_qr st).1.last_sonde_position =
      st.last_sonde_position := by
  cases h : st.last_sonde_position <;> simp [Display.show_geo_qr, h]

/-- `_check_touch` never writes `last_sonde_position`. -/
theorem check_touch_lsp (pt : Int × Int) (st : Display.DisplayState) :
    (Display.check_touch pt st).1.last_sonde_position =
      st.last_sonde_position := by
  simp only [Display.check_touch, Display.touch_buttons, List.foldl_cons,
    List.foldl_nil]
  by_cases h : Display.button_hit pt ⟨100, 30, 70, 5⟩
  · simp [h, show_geo_qr_lsp]
  · simp [h]

/-- What `update_after_sleep` leaves in `last_sonde_position`: the
record's rounded position when telemetry is present, the previous value
otherwise. -/
theorem update_after_sleep_lsp (st : Display.DisplayState)
    (autorx : Option Display.AutorxData) :
    (Display.update_after_sleep st autorx).1.last_sonde_position =
      (match autorx with
        | some a =>
          some (Display.round5 a.latitude, Display.round5 a.longitude, a.time)
        | none => st.last_sonde_position) := by
  obtain ⟨bt, lsp0, slp, td⟩ := st
  cases autorx with
  | none =>
    cases td with
    | none => simp [Display.update_after_sleep, Display.draw_screens]
    | some td0 =>
      cases bt with
      | true => simp [Display.update_after_sleep, Display.draw_screens]
      | false =>
        cases td0 with
        | nil => simp [Display.update_after_sleep, Display.draw_screens]
        | cons pt rest =>
          simp only [Display.update_after_sleep, Bool.false_eq_true,
            if_false]
          split
          · simp [check_touch_lsp]
          · simp [Display.draw_screens, check_touch_lsp]
  | some a =>
    cases td with
    | none => simp [Display.update_after_sleep, Display.draw_screens]
    | some td0 =>
      cases bt with
      | true => simp [Display.update_after_sleep, Display.draw_screens]
      | false =>
        cases td0 with
        | nil => simp [Display.update_after_sleep, Display.draw_screens]
        | cons pt rest =>
          simp only [Display.update_after_sleep, Bool.false_eq_true,
            if_false]
          split
          · simp [check_touch_lsp]
          · simp [Display.draw_screens, check_touch_lsp]

/-- C7 counterexample: the claim says a tick with telemetry present
always updates the retained last-known sonde position; but a tick
arriving while the sleep cooldown is active (`sleep_time = 3`) returns
early, leaving `last_sonde_position` at its previous value (`none`
here) instead of the record's rounded position. -/
theorem sleeping_tick_skips_sonde_position_update :
    (Display.update ⟨false, none, 3, none⟩ ⟨some 4, "3D"⟩
        (some ⟨1, 2, 0, 5⟩) true).1.last_sonde_position = none ∧
      (none : Option (Rat × Rat × Int)) ≠
        some (Display.round5 1, Display.round5 2, (5 : Int)) := by
  exact ⟨rfl, by simp⟩

/-- C7 (amended): on every tick on which the sleep cooldown is inactive
(`sleep_time = 0`) and a telemetry record is present,
`last_sonde_position` is set to the record's rounded latitude, rounded
longitude and receipt time, independent of the record's staleness; on a
cooldown-inactive tick with no record it is unchanged; on a sleeping
tick (`sleep_time > 0`) it is also unchanged. -/
theorem update_last_sonde_position (st : Display.DisplayState)
    (g : Display.GpsdFix) (rel : Bool) :
    (∀ a : Display.AutorxData, st.sleep_time = 0 →
      (Display.update st g (some a) rel).1.last_sonde_position =
        some (Display.round5 a.latitude, Display.round5 a.longitude,
          a.time)) ∧
    (st.sleep_time = 0 →
      (Display.update st g none rel).1.last_sonde_position =
        st.last_sonde_position) ∧
    (∀ autorx : Option Display.AutorxData, st.sleep_time > 0 →
      (Display.update st g autorx rel).1.last_sonde_position =
        st.last_sonde_position) := by
  refine ⟨?_, ?_, ?_⟩
  · intro a h
    simp only [Display.update, h, lt_irrefl, if_false]
    exact update_after_sleep_lsp st (some a)
  · intro h
    simp only [Display.update, h, lt_irrefl, if_false]
    exact update_after_sleep_lsp st none
  · intro autorx h
    simp [Display.update, h]

/-- C7 witness: a cooldown-inactive tick with a concrete telemetry
record stores its rounded position. -/
theorem update_last_sonde_position_witness :
    (Display.update ⟨false, none, 0, none⟩ ⟨some 4, "3D"⟩
        (some ⟨1, 2, 0, 5⟩) true).1.last_sonde_position =
      some (Display.round5 1, Display.round5 2, (5 : Int)) := by
  exact (update_last_sonde_position ⟨false, none, 0, none⟩
    ⟨some 4, "3D"⟩ true).1 ⟨1, 2, 0, 5⟩ rfl

/-- C9: a call to `update` made while `sleep_time > 0` returns after
resetting `sleep_time` to 0, drawing nothing, and changing no other
field of the controller state (in particular `last_sonde_position`,
`block_touch` and the pending touch queue are untouched, even with
telemetry and touch data present). -/
theorem update_sleeping_resets_only_sleep (st : Display.DisplayState)
    (g : Display.GpsdFix) (a : Option Display.AutorxData) (rel : Bool)
    (h : st.sleep_time > 0) :
    Display.update st g a rel = ({ st with sleep_time := 0 }, none) := by
  simp [Display.update, h]

/-- C9 witness: a sleeping tick with telemetry and touch data present
only clears `sleep_time`. -/
theorem update_sleeping_resets_only_sleep_witness :
    Display.update ⟨true, none, 3, some [(85, 15)]⟩ ⟨some 4, "3D"⟩
        (some ⟨1, 2, 0, 5⟩) true =
      (⟨true, none, 0, some [(85, 15)]⟩, none) := by
  exact update_sleeping_resets_only_sleep ⟨true, none, 3, some [(85, 15)]⟩
    ⟨some 4, "3D"⟩ (some ⟨1, 2, 0, 5⟩) true (by decide)

/-- C10: while `irq_locked` is set by a press and not yet cleared by
the matching release, every further `irq_press` delivers nothing and
changes no state (it is the identity, also along any sequence of
presses); a press always leaves the flag set; and a single press
appends at most one point to the output queue — hence at most one touch
point is delivered per press/release cycle. -/
theorem irq_press_at_most_one_delivery (c : Touch.TouchCfg) :
    (∀ (st : Touch.IrqState) (raw : Nat × Nat),
      st.irq_locked = true → Touch.irq_press c st raw = st) ∧
    (∀ (st : Touch.IrqState) (raw : Nat × Nat),
      (Touch.irq_press c st raw).irq_locked = true) ∧
    (∀ (st : Touch.IrqState) (raws : List (Nat × Nat)),
      st.irq_locked = true → List.foldl (Touch.irq_press c) st raws = st) ∧
    (∀ (st : Touch.IrqState) (raw : Nat × Nat),
      (Touch.irq_press c st raw).out_queue.length ≤
        st.out_queue.length + 1) := by
  have hlocked : ∀ (st : Touch.IrqState) (raw : Nat × Nat),
      st.irq_locked = true → Touch.irq_press c st raw = st := by
    intro st raw h
    simp [Touch.irq_press, h]
  refine ⟨hlocked, ?_, ?_, ?_⟩
  · intro st raw
    by_cases h : st.irq_locked
    · rw [hlocked st raw h]
      exact h
    · simp only [Touch.irq_press, h, Bool.false_eq_true, if_false]
      cases Touch.raw_touch c raw <;> simp
  · intro st raws h
    induction raws with
    | nil => rfl
    | cons r rest ih =>
      rw [List.foldl_cons, hlocked st r h]
      exact ih
  · intro st raw
    by_cases h : st.irq_locked
    · rw [hlocked st raw h]
      omega
    · simp only [Touch.irq_press, h, Bool.false_eq_true, if_false]
      cases Touch.raw_touch c raw <;> simp

/-- C10 witness: with the flag set, a press (and a run of presses)
changes nothing; a single press from the unlocked state appends at most
one point. -/
theorem irq_press_at_most_one_delivery_witness :
    Touch.irq_press ⟨320, 240, 100, 1962, 100, 1900⟩ ⟨true, [(3, 4)]⟩
        (500, 500) = ⟨true, [(3, 4)]⟩ ∧
    List.foldl (Touch.irq_press ⟨320, 240, 100, 1962, 100, 1900⟩)
        ⟨true, []⟩ [(500, 500), (600, 700)] = ⟨true, []⟩ := by
  exact ⟨(irq_press_at_most_one_delivery _).1 _ _ rfl,
    (irq_press_at_most_one_delivery _).2.2.1 _ _ rfl⟩

/-- A list of length 5 is a literal quintuple. -/
theorem exists_five {α : Type} {l : List α} (h : l.length = 5) :
    ∃ a b c d e : α, l = [a, b, c, d, e] := by
  rcases l with _ | ⟨a, _ | ⟨b, _ | ⟨c, _ | ⟨d, _ | ⟨e, _ | ⟨f, t⟩⟩⟩⟩⟩⟩
  · simp only [List.length_nil] at h; omega
  · simp only [List.length_cons, List.length_nil] at h; omega
  · simp only [List.length_cons, List.length_nil] at h; omega
  · simp only [List.length_cons, List.length_nil] at h; omega
  · simp only [List.length_cons, List.length_nil] at h; omega
  · exact ⟨a, b, c, d, e, rfl⟩
  · simp only [List.length_cons] at h; omega

example (b0 b1 b2 b3 b4 e0 e1 e2 e3 e4 : Nat × Nat)
    (h0 : [b0, b1, b2, b3, b4][(1 + 4 - 0) % 5]? = [e0, e1, e2, e3, e4][0]?) :
    b0 = e0 := by simpa using h0

/-- A full ring whose slot `(bi + 4 - j) % 5` holds the `j`-th newest
sample is a rotation of the newest-first samples reversed. -/
theorem ring_perm {b0 b1 b2 b3 b4 e0 e1 e2 e3 e4 : Nat × Nat} {bi : Nat}
    (hbi : bi < 5)
    (hring : ∀ j, j < 5 →
      [b0, b1, b2, b3, b4][(bi + 4 - j) % 5]? = [e0, e1, e2, e3, e4][j]?) :
    [b0, b1, b2, b3, b4].Perm [e4, e3, e2, e1, e0] := by
  have h0 := hring 0 (by omega)
  have h1 := hring 1 (by omega)
  have h2 := hring 2 (by omega)
  have h3 := hring 3 (by omega)
  have h4 := hring 4 (by omega)
  interval_cases bi
  · obtain rfl : b4 = e0 := by simpa using h0
    obtain rfl : b3 = e1 := by simpa using h1
    obtain rfl : b2 = e2 := by simpa using h2
    obtain rfl : b1 = e3 := by simpa using h3
    obtain rfl : b0 = e4 := by simpa using h4
    exact List.Perm.refl _
  · obtain rfl : b0 = e0 := by simpa using h0
    obtain rfl : b4 = e1 := by simpa using h1
    obtain rfl : b3 = e2 := by simpa using h2
    obtain rfl : b2 = e3 := by simpa using h3
    obtain rfl : b1 = e4 := by simpa using h4
    exact @List.perm_append_comm _ [b0] [b1, b2, b3, b4]
  · obtain rfl : b1 = e0 := by simpa using h0
    obtain rfl : b0 = e1 := by simpa using h1
    obtain rfl : b4 = e2 := by simpa using h2
    obtain rfl : b3 = e3 := by simpa using h3
    obtain rfl : b2 = e4 := by simpa using h4
    exact @List.perm_append_comm _ [b0, b1] [b2, b3, b4]
  · obtain rfl : b2 = e0 := by simpa using h0
    obtain rfl : b1 = e1 := by simpa using h1
    obtain rfl : b0 = e2 := by simpa using h2
    obtain rfl : b4 = e3 := by simpa using h3
    obtain rfl : b3 = e4 := by simpa using h4
    exact @List.perm_append_comm _ [b0, b1, b2] [b3, b4]
  · obtain rfl : b3 = e0 := by simpa using h0
    obtain rfl : b2 = e1 := by simpa using h1
    obtain rfl : b1 = e2 := by simpa using h2
    obtain rfl : b0 = e3 := by simpa using h3
    obtain rfl : b4 = e4 := by simpa using h4
    exact @List.perm_append_comm _ [b0, b1, b2, b3] [b4]

/-- `sumX` is invariant under permutation. -/
theorem sumX_perm {l l' : List (Nat × Nat)} (h : l.Perm l') :
    Touch.sumX l = Touch.sumX l' :=
  (h.map Prod.fst).sum_eq

/-- `sumY` is invariant under permutation. -/
theorem sumY_perm {l l' : List (Nat × Nat)} (h : l.Perm l') :
    Touch.sumY l = Touch.sumY l' :=
  (h.map Prod.snd).sum_eq

/-- `meanX` is invariant under permutation. -/
theorem meanX_perm {l l' : List (Nat × Nat)} (h : l.Perm l') :
    Touch.meanX l = Touch.meanX l' := by
  unfold Touch.meanX
  rw [sumX_perm h]

/-- `meanY` is invariant under permutation. -/
theorem meanY_perm {l l' : List (Nat × Nat)} (h : l.Perm l') :
    Touch.meanY l = Touch.meanY l' := by
  unfold Touch.meanY
  rw [sumY_perm h]

/-- `dev` is invariant under permutation. -/
theorem dev_perm {l l' : List (Nat × Nat)} (h : l.Perm l') :
    Touch.dev l = Touch.dev l' := by
  unfold Touch.dev
  rw [meanX_perm h, meanY_perm h,
    (h.map (fun c =>
      ((c.1 : Int) - (Touch.meanX l' : Int)) ^ 2 +
        ((c.2 : Int) - (Touch.meanY l' : Int)) ^ 2)).sum_eq]

/-- The loop invariant holds at the initial `get_touch` state. -/
theorem inv_init (c : Touch.TouchCfg) :
    Touch.GetTouchInv c Touch.initGetTouchState [] := by
  refine ⟨by simp [Touch.initGetTouchState], by simp [Touch.initGetTouchState],
    by simp [Touch.initGetTouchState], [], ?_, ?_, ?_, ?_⟩
  · simp [Touch.initGetTouchState]
  · simp
  · simp
  · intro j hj
    simp [Touch.initGetTouchState] at hj

/-- One sampling step preserves the `get_touch` loop invariant. -/
theorem inv_step (c : Touch.TouchCfg) (st : Touch.GetTouchState)
    (done : List (Nat × Nat)) (r : Nat × Nat)
    (h : Touch.GetTouchInv c st done) :
    Touch.GetTouchInv c (Touch.sample_step c st r) (done ++ [r]) := by
  obtain ⟨hlen, hbi, hns, recent, hrl, hsuf, hin, hring⟩ := h
  unfold Touch.sample_step
  cases hraw : Touch.raw_touch c r with
  | none =>
    refine ⟨by simpa using hlen, by simpa using hbi, by simp, [], by simp, ?_, by simp, ?_⟩
    · exact ⟨done ++ [r], by simp⟩
    · intro j hj
      simp at hj
  | some s =>
    have hsr : s = r := by
      unfold Touch.raw_touch at hraw
      split at hraw
      · exact (Option.some.inj hraw).symm
      · exact absurd hraw (by simp)
    subst hsr
    have hns' : 1 ≤ min (st.nsamples + 1) 5 ∧ min (st.nsamples + 1) 5 ≤ 5 ∧
        min (st.nsamples + 1) 5 ≤ st.nsamples + 1 := by omega
    refine ⟨by simpa using hlen, by simp [Nat.mod_lt], by simp,
      (s :: recent).take (min (st.nsamples + 1) 5), ?_, ?_, ?_, ?_⟩
    · simp only [List.length_take, List.length_cons, hrl]
      omega
    · -- suffix property
      rcases Nat.lt_or_ge st.nsamples 5 with hlt | hge
      · have hmin : min (st.nsamples + 1) 5 = st.nsamples + 1 := by omega
        have htake : (s :: recent).take (st.nsamples + 1) = s :: recent := by
          apply List.take_of_length_le
          simp [hrl]
        rw [hmin, htake]
        obtain ⟨t, ht⟩ := hsuf
        exact ⟨t, by rw [List.reverse_cons, ← List.append_assoc, ht]⟩
      · have heq : st.nsamples = 5 := by omega
        obtain ⟨q0, q1, q2, q3, q4, rfl⟩ := exists_five (hrl.trans heq)
        have hmin : min (st.nsamples + 1) 5 = 5 := by omega
        rw [hmin]
        obtain ⟨t, ht⟩ := hsuf
        refine ⟨t ++ [q4], ?_⟩
        rw [← ht]
        simp
    · -- in-bounds
      intro e he
      have hec : e ∈ s :: recent := List.mem_of_mem_take he
      rcases List.mem_cons.mp hec with rfl | hmem
      · rw [hraw]
        rfl
      · exact hin e hmem
    · -- ring property
      intro j hj
      simp only [List.length_take] at hj
      rcases Nat.eq_zero_or_pos j with rfl | hjpos
      · have hidx : ((st.buffer_index + 1) % 5 + 4 - 0) % 5 = st.buffer_index := by omega
        rw [hidx]
        have hset : (st.buffer.set st.buffer_index s)[st.buffer_index]? = some s := by
          rw [List.getElem?_set]
          simp [hlen, hbi]
        rw [hset]
        have : ((s :: recent).take (min (st.nsamples + 1) 5))[0]? = some s := by
          rw [List.getElem?_take, if_pos (by omega)]
          simp
        rw [this]
      · obtain ⟨j', rfl⟩ : ∃ j', j = j' + 1 := ⟨j - 1, by omega⟩
        have hj5 : j' + 1 ≤ 4 := by omega
        have hidx : ((st.buffer_index + 1) % 5 + 4 - (j' + 1)) % 5 =
            (st.buffer_index + 4 - j') % 5 := by omega
        have hne : (st.buffer_index + 4 - j') % 5 ≠ st.buffer_index := by omega
        rw [hidx, List.getElem?_set]
        rw [if_neg (fun hh => hne hh.symm)]
        have hj'ns : j' < st.nsamples := by omega
        rw [hring j' hj'ns]
        have : ((s :: recent).take (min (st.nsamples + 1) 5))[j' + 1]? =
            recent[j']? := by
          rw [List.getElem?_take]
          rw [if_pos (by omega)]
          simp
        rw [this]

/-- Soundness of the `get_touch` loop: any returned point comes from a
window of 5 consecutive in-bounds raw reads with deviation at most 50 and
equals the affine-normalized integer mean of that window. -/
theorem get_touch_go_sound (c : Touch.TouchCfg) :
    ∀ (rest : List (Nat × Nat)) (st : Touch.GetTouchState)
      (done : List (Nat × Nat)), Touch.GetTouchInv c st done →
      ∀ p : Int × Int, Touch.get_touch_go c st rest = some p →
        ∃ k w, k + 5 ≤ (done ++ rest).length ∧
          ((done ++ rest).drop k).take 5 = w ∧
          (∀ e ∈ w, (Touch.raw_touch c e).isSome = true) ∧
          Touch.dev w ≤ 50 ∧
          p = Touch.normalize c (Touch.meanX w) (Touch.meanY w) := by
  intro rest
  induction rest with
  | nil =>
    intro st done hinv p hp
    simp [Touch.get_touch_go] at hp
  | cons r rest ih =>
    intro st done hinv p hp
    simp only [Touch.get_touch_go] at hp
    by_cases hcond : st.nsamples = 5 ∧ Touch.dev st.buffer ≤ 50
    · rw [if_pos hcond] at hp
      obtain ⟨hns5, hdev⟩ := hcond
      obtain ⟨hlen, hbi, hns, recent, hrl, hsuf, hin, hring⟩ := hinv
      obtain ⟨q0, q1, q2, q3, q4, rfl⟩ := exists_five (hrl.trans hns5)
      obtain ⟨b0, b1, b2, b3, b4, hbuf⟩ := exists_five hlen
      have hringb : ∀ j, j < 5 →
          [b0, b1, b2, b3, b4][(st.buffer_index + 4 - j) % 5]? =
            [q0, q1, q2, q3, q4][j]? := by
        intro j hj
        rw [← hbuf]
        exact hring j (by omega)
      have hperm : st.buffer.Perm [q4, q3, q2, q1, q0] := by
        rw [hbuf]
        exact ring_perm hbi hringb
      obtain ⟨t, ht⟩ := hsuf
      have ht' : t ++ [q4, q3, q2, q1, q0] = done := by simpa using ht
      have hpe := Option.some.inj hp
      refine ⟨t.length, [q4, q3, q2, q1, q0], ?_, ?_, ?_, ?_, ?_⟩
      · rw [← ht']
        simp
      · rw [← ht', List.append_assoc, List.drop_left]
        exact List.take_left' (by simp)
      · intro e he
        have hmem : e ∈ [q0, q1, q2, q3, q4] := by
          simp only [List.mem_cons, List.not_mem_nil, or_false] at he ⊢
          tauto
        exact hin e hmem
      · rw [← dev_perm hperm]
        exact hdev
      · rw [← hpe, meanX_perm hperm, meanY_perm hperm]
    · rw [if_neg hcond] at hp
      obtain ⟨k, w, h1, h2, h3, h4, h5⟩ :=
        ih (Touch.sample_step c st r) (done ++ [r])
          (inv_step c st done r hinv) p hp
      refine ⟨k, w, ?_, ?_, h3, h4, h5⟩
      · simpa [List.append_assoc] using h1
      · rw [show done ++ r :: rest = (done ++ [r]) ++ rest by simp]
        exact h2

/-- C5: `get_touch` returns a point only once 5 consecutive in-bounds
raw samples fill the ring with combined mean squared deviation from the
integer mean at most 50, in which case it returns the affine-normalized
mean of those 5 samples; any out-of-bounds raw read resets the
accepted-sample counter to 0; and if no qualifying window occurs within
the 2-second budget (the first 40 raw reads), `get_touch` returns no
point (the model is total: no error outcome exists). -/
theorem get_touch_correct (c : Touch.TouchCfg) (reads : List (Nat × Nat)) :
    (∀ (st : Touch.GetTouchState) (r : Nat × Nat),
      Touch.raw_touch c r = none → (Touch.sample_step c st r).nsamples = 0) ∧
    (∀ p : Int × Int, Touch.get_touch c reads = some p →
      ∃ k w, k + 5 ≤ (reads.take 40).length ∧
        ((reads.take 40).drop k).take 5 = w ∧
        (∀ e ∈ w, (Touch.raw_touch c e).isSome = true) ∧
        Touch.dev w ≤ 50 ∧
        p = Touch.normalize c (Touch.meanX w) (Touch.meanY w)) ∧
    ((¬ ∃ k w, k + 5 ≤ (reads.take 40).length ∧
        ((reads.take 40).drop k).take 5 = w ∧
        (∀ e ∈ w, (Touch.raw_touch c e).isSome = true) ∧
        Touch.dev w ≤ 50) →
      Touch.get_touch c reads = none) := by
  have hsound :=
    get_touch_go_sound c (reads.take 40) Touch.initGetTouchState [] (inv_init c)
  refine ⟨?_, ?_, ?_⟩
  · intro st r hr
    simp [Touch.sample_step, hr]
  · intro p hp
    exact hsound p hp
  · intro hnex
    cases hg : Touch.get_touch c reads with
    | none => rfl
    | some p =>
      exfalso
      obtain ⟨k, w, h1, h2, h3, h4, h5⟩ := hsound p hg
      exact hnex ⟨k, w, h1, h2, h3, h4⟩

/-- C5 witness: a stream of identical in-bounds reads yields the
normalized mean after the first full ring. -/
theorem get_touch_correct_witness :
    ∃ k w,
      k + 5 ≤ ((List.replicate 40 ((1000 : Nat), (1000 : Nat))).take 40).length ∧
      (((List.replicate 40 ((1000 : Nat), (1000 : Nat))).take 40).drop k).take 5 = w ∧
      (∀ e ∈ w,
        (Touch.raw_touch ⟨320, 240, 100, 1380, 100, 1300⟩ e).isSome = true) ∧
      Touch.dev w ≤ 50 ∧
      ((225 : Int), (180 : Int)) =
        Touch.normalize ⟨320, 240, 100, 1380, 100, 1300⟩ (Touch.meanX w)
          (Touch.meanY w) := by
  have hdev : Touch.dev
      [((1000 : Nat), (1000 : Nat)), (1000, 1000), (1000, 1000), (1000, 1000),
        (1000, 1000)] ≤ 50 := by
    norm_num [Touch.dev, Touch.meanX, Touch.meanY, Touch.sumX, Touch.sumY]
  have hnorm : Touch.normalize ⟨320, 240, 100, 1380, 100, 1300⟩ 1000 1000 =
      (225, 180) := by
    norm_num [Touch.normalize, Touch.truncInt, Touch.x_multiplier, Touch.x_add,
      Touch.y_multiplier, Touch.y_add, Rat.num_ofNat, Rat.den_ofNat]
  have heval : Touch.get_touch ⟨320, 240, 100, 1380, 100, 1300⟩
      (List.replicate 40 (1000, 1000)) = some (225, 180) := by
    have h6 : Touch.get_touch ⟨320, 240, 100, 1380, 100, 1300⟩
        (List.replicate 40 (1000, 1000)) =
        Touch.get_touch_go ⟨320, 240, 100, 1380, 100, 1300⟩
          ⟨[(1000, 1000), (1000, 1000), (1000, 1000), (1000, 1000),
            (1000, 1000)], 0, 5⟩
          ((1000, 1000) :: List.replicate 34 (1000, 1000)) := by rfl
    rw [h6]
    simp only [Touch.get_touch_go]
    rw [if_pos (And.intro trivial hdev)]
    rw [show Touch.meanX [((1000 : Nat), (1000 : Nat)), (1000, 1000),
      (1000, 1000), (1000, 1000), (1000, 1000)] = 1000 from rfl]
    rw [show Touch.meanY [((1000 : Nat), (1000 : Nat)), (1000, 1000),
      (1000, 1000), (1000, 1000), (1000, 1000)] = 1000 from rfl]
    rw [hnorm]
  exact (get_touch_correct ⟨320, 240, 100, 1380, 100, 1300⟩
    (List.replicate 40 (1000, 1000))).2.1 (225, 180) heval
